import Mathlib

/-!
# Verification of the weight-fitting engine (`optimization.py`)

This file is a shallow embedding of `find_optimized_weights` from
`src/optimization.py` of the `finding_fifa_players_rating` repository,
together with proofs of the spec's testable properties about it.

Modelling choices:
* Machine floats become exact rationals (`ℚ`); the spec's numerical
  tolerances (1e-9, 1e-12) are met by exact equalities/inequalities.
* The two scipy `minimize` back-ends (`"SLSQP"` and `"trust-constr"`) are
  external library calls; they are abstracted as a function
  `runMethod : String → Option OptimizeResult`, where `none` models the
  method raising an exception (which the source catches and skips) and
  `some r` models the method returning a scipy result object with fields
  `success`, `x` and `fun` (the latter renamed `fval`, `fun` being a Lean
  keyword).
* Python `dict` construction (`{name: w for name, w in zip(...)}`) is
  modelled explicitly by `dictOfPairs`: insertion order, later bindings of
  the same key overwriting earlier ones.
* `raise ValueError(...)` becomes `Except.error (FitError.valueError ...)`.
-/

/-- `PlayerStatistic` from `shared_types.py`: `{"value": float, "diff": float}`. -/
structure PlayerStatistic where
  value : ℚ
  diff : ℚ

/-- `PlayerPosition` from `shared_types.py`. -/
structure PlayerPosition where
  id : String
  shortLabel : String
  label : String

/-- `Player` from `shared_types.py`. The `stats` dict is modelled as a total
function from statistic names to statistics (the spec assumes every record
carries a numeric value for every named statistic). -/
structure Player where
  overallRating : ℚ
  stats : String → PlayerStatistic
  position : PlayerPosition

/-- The single error the source raises on structural input problems:
`raise ValueError("Not players for position or features to analyze.")`. -/
inductive FitError where
  | valueError : String → FitError
deriving DecidableEq, Repr

/-- A scipy `OptimizeResult` as used by the source: `result.success`,
`result.x` and `result.fun` (here `fval`). -/
structure OptimizeResult where
  success : Bool
  x : List ℚ
  fval : ℚ
deriving DecidableEq, Repr

/-- The result record built by `find_optimized_weights` (the `Optimization`
TypedDict of `shared_types.py`). `optimized_weights` is the Python dict,
i.e. an association list with distinct keys in insertion order. -/
structure Optimization where
  name : String
  position_short_label : String
  varying_stats_names : List String
  target_stat_name : String
  optimized_weights : List (String × ℚ)
  mean_error : ℚ
deriving DecidableEq, Repr

/-! ## Python dict semantics -/

/-- One Python dict assignment `d[k] = v`: if the key is present its binding
is overwritten in place, otherwise the pair is appended. -/
def dictInsert (d : List (String × ℚ)) (k : String) (v : ℚ) : List (String × ℚ) :=
  if d.any (fun p => p.1 == k) then
    d.map (fun p => if p.1 == k then (p.1, v) else p)
  else
    d ++ [(k, v)]

/-- A Python dict comprehension over a list of key/value pairs: assignments
performed left to right, later keys overwriting earlier ones. -/
def dictOfPairs (pairs : List (String × ℚ)) : List (String × ℚ) :=
  pairs.foldl (fun d kv => dictInsert d kv.1 kv.2) []

/-- Python `d[k]` (as an option): the value bound to `k`. -/
def dictFind (d : List (String × ℚ)) (k : String) : Option ℚ :=
  (d.find? (fun p => p.1 == k)).map Prod.snd

/-! ## The engine (`find_optimized_weights`) -/

/-- The position filter: `[p for p in players if p["position"]["shortLabel"]
== position_short_label]`. -/
def playersForPosition (players : List Player) (position_short_label : String) :
    List Player :=
  players.filter (fun p => p.position.shortLabel == position_short_label)

/-- `_get_target_values` for one player: the overall rating when the target
is `"overallRating"`, else the named statistic's value. -/
def getTargetValue (target_stat_name : String) (player : Player) : ℚ :=
  if target_stat_name = "overallRating" then player.overallRating
  else (player.stats target_stat_name).value

/-- `_get_target_values`: the target vector `y_actual`. -/
def targetVector (target_stat_name : String) (players_subset : List Player) :
    List ℚ :=
  players_subset.map (getTargetValue target_stat_name)

/-- `_get_feature_matrix` for one player: its feature row in the order of
`varying_stats_names`. -/
def getFeatureRow (varying_stats_names : List String) (player : Player) : List ℚ :=
  varying_stats_names.map (fun nm => (player.stats nm).value)

/-- `_get_feature_matrix`: the matrix `X` (one row per player). -/
def featureMatrix (varying_stats_names : List String)
    (players_subset : List Player) : List (List ℚ) :=
  players_subset.map (getFeatureRow varying_stats_names)

/-- The degeneracy filter: `valid_indices = y_actual != 0` applied to both
`X` and `y_actual`, keeping (row, target) pairs with nonzero target. -/
def validRows (X : List (List ℚ)) (y_actual : List ℚ) : List (List ℚ × ℚ) :=
  (X.zip y_actual).filter (fun r => decide (r.2 ≠ 0))

/-- Row dot product `row · weights` (one entry of `X_valid @ weights`). -/
def dotProduct (row weights : List ℚ) : ℚ :=
  (List.zipWith (fun a b => a * b) row weights).sum

/-- The source's `objective`: mean over the retained rows of
`abs((X·w - y) / y)` — mean absolute relative error. -/
def objective (rows : List (List ℚ × ℚ)) (weights : List ℚ) : ℚ :=
  ((rows.map (fun r => |(dotProduct r.1 weights - r.2) / r.2|)).sum) /
    (rows.length : ℚ)

/-- Modelled from the spec: `objective(w) = mean_over_rows( |X·w - y| / |y| )`
(§4.3), written exactly as the spec words it, dividing by the absolute value
of the target. To be compared with `objective`. -/
def objectiveSpec (rows : List (List ℚ × ℚ)) (weights : List ℚ) : ℚ :=
  ((rows.map (fun r => |dotProduct r.1 weights - r.2| / |r.2|)).sum) /
    (rows.length : ℚ)

/-- The uniform weight `1.0 / n_features`. -/
def uniformWeight (n_features : ℕ) : ℚ := 1 / (n_features : ℚ)

/-- Normalization: `optimized_weights_array / np.sum(optimized_weights_array)`. -/
def normalizeWeights (x : List ℚ) : List ℚ :=
  x.map (fun w => w / x.sum)

/-- `methods = ["SLSQP", "trust-constr"]`, in the order the source tries them. -/
def methods : List String := ["SLSQP", "trust-constr"]

/-- One iteration of the driver loop over `methods`. The accumulator is
`(best_result, best_error)`, with `none` for `best_error` standing for the
initial `float("inf")`. An outcome of `none` is a method that raised: the
source catches the exception and continues. A returned result replaces the
best only if `result.success and result.fun < best_error`. -/
def driverStep (acc : Option OptimizeResult × Option ℚ)
    (outcome : Option OptimizeResult) : Option OptimizeResult × Option ℚ :=
  match outcome with
  | none => acc
  | some r =>
      let beats : Bool :=
        match acc.2 with
        | none => true
        | some e => decide (r.fval < e)
      if r.success && beats then (some r, some r.fval) else acc

/-- The whole driver loop: fold `driverStep` over the methods' outcomes,
starting from `best_result = None`, `best_error = inf`. -/
def driverFold (outcomes : List (Option OptimizeResult)) :
    Option OptimizeResult × Option ℚ :=
  outcomes.foldl driverStep (none, none)

/-- Modelled from the spec (§4.4 selection policy): only outcomes reporting
success are candidates; among the candidates the one with the lowest
objective value wins, exact ties going to the method tried first. Stated for
the source's two methods; to be compared with `driverFold`. -/
def claimedSelection (o1 o2 : Option OptimizeResult) : Option OptimizeResult :=
  let c1 := o1.bind (fun r => if r.success then some r else none)
  let c2 := o2.bind (fun r => if r.success then some r else none)
  match c1, c2 with
  | none, none => none
  | some r, none => some r
  | none, some r => some r
  | some r1, some r2 => if r2.fval < r1.fval then some r2 else some r1

/-- `find_optimized_weights` from `src/optimization.py`. `runMethod` stands
for the external scipy call of each named method (see the module docstring);
everything else follows the source line by line. The `print` calls are
output-only and are omitted. -/
def find_optimized_weights (runMethod : String → Option OptimizeResult)
    (optimization_name : String) (players : List Player)
    (position_short_label : String) (varying_stats_names : List String)
    (target_stat_name : String) : Except FitError Optimization :=
  let players_for_position := playersForPosition players position_short_label
  let n_features := varying_stats_names.length
  if players_for_position.isEmpty || n_features == 0 then
    .error (.valueError "Not players for position or features to analyze.")
  else
    let y_actual := targetVector target_stat_name players_for_position
    let X := featureMatrix varying_stats_names players_for_position
    let rows := validRows X y_actual
    if rows.isEmpty then
      .ok { name := optimization_name
            position_short_label := position_short_label
            varying_stats_names := varying_stats_names
            target_stat_name := target_stat_name
            optimized_weights :=
              dictOfPairs (varying_stats_names.map
                (fun nm => (nm, uniformWeight n_features)))
            mean_error := 0 }
    else
      let initial_weights := List.replicate n_features (uniformWeight n_features)
      match (driverFold (methods.map runMethod)).1 with
      | none =>
          .ok { name := optimization_name
                position_short_label := position_short_label
                varying_stats_names := varying_stats_names
                target_stat_name := target_stat_name
                optimized_weights :=
                  dictOfPairs (varying_stats_names.zip initial_weights)
                mean_error := objective rows initial_weights }
      | some best_result =>
          .ok { name := optimization_name
                position_short_label := position_short_label
                varying_stats_names := varying_stats_names
                target_stat_name := target_stat_name
                optimized_weights :=
                  dictOfPairs
                    (varying_stats_names.zip (normalizeWeights best_result.x))
                mean_error := best_result.fval }

/-! ## Helper lemmas: sums and normalization -/

theorem sum_map_div (l : List ℚ) (s : ℚ) :
    (l.map (fun a => a / s)).sum = l.sum / s := by
  induction l with
  | nil => simp
  | cons a t ih => simp [ih, add_div]

theorem normalizeWeights_sum (x : List ℚ) (h : x.sum ≠ 0) :
    (normalizeWeights x).sum = 1 := by
  simp [normalizeWeights, sum_map_div, div_self h]

theorem normalizeWeights_nonneg (x : List ℚ) (hpos : 0 < x.sum)
    (hc : ∀ c ∈ x, 0 ≤ c) : ∀ c ∈ normalizeWeights x, 0 ≤ c := by
  intro c hmem
  rcases List.mem_map.1 hmem with ⟨a, ha, rfl⟩
  exact div_nonneg (hc a ha) hpos.le

theorem normalizeWeights_length (x : List ℚ) :
    (normalizeWeights x).length = x.length := by
  simp [normalizeWeights]

theorem normalizeWeights_sum_one (x : List ℚ) (h : x.sum = 1) :
    normalizeWeights x = x := by
  simp [normalizeWeights, h]

theorem uniform_sum (n : ℕ) (h : n ≠ 0) :
    (List.replicate n (uniformWeight n)).sum = 1 := by
  rw [List.sum_replicate, nsmul_eq_mul, uniformWeight, mul_one_div,
    div_self (Nat.cast_ne_zero.2 h)]

theorem zip_replicate_eq_map (l : List String) (u : ℚ) :
    l.zip (List.replicate l.length u) = l.map (fun nm => (nm, u)) := by
  induction l with
  | nil => rfl
  | cons a t ih => simp [List.replicate_succ, ih]

/-! ## Helper lemmas: the solver driver -/

theorem driverFold_pair (o1 o2 : Option OptimizeResult) :
    (driverFold [o1, o2]).1 = claimedSelection o1 o2 := by
  rcases o1 with _ | r1 <;> rcases o2 with _ | r2 <;>
    simp only [driverFold, List.foldl, driverStep, claimedSelection, Option.bind] <;>
    try rfl
  · cases hr2 : r2.success <;> simp [hr2]
  · cases hr1 : r1.success <;> simp [hr1]
  · cases hr1 : r1.success <;> cases hr2 : r2.success <;> simp [hr1, hr2]
    split <;> rfl

theorem claimedSelection_success (o1 o2 : Option OptimizeResult)
    (r : OptimizeResult) (h : claimedSelection o1 o2 = some r) :
    r.success = true ∧ (o1 = some r ∨ o2 = some r) := by
  rcases o1 with _ | r1 <;> rcases o2 with _ | r2 <;>
    simp only [claimedSelection, Option.bind] at h
  · exact absurd h (by simp)
  · cases hr2 : r2.success <;> rw [hr2] at h <;> simp at h
    subst h; exact ⟨hr2, Or.inr rfl⟩
  · cases hr1 : r1.success <;> rw [hr1] at h <;> simp at h
    subst h; exact ⟨hr1, Or.inl rfl⟩
  · cases hr1 : r1.success <;> cases hr2 : r2.success <;>
      rw [hr1, hr2] at h <;> simp at h
    · subst h; exact ⟨hr2, Or.inr rfl⟩
    · subst h; exact ⟨hr1, Or.inl rfl⟩
    · split at h
      · simp at h; subst h; exact ⟨hr2, Or.inr rfl⟩
      · simp at h; subst h; exact ⟨hr1, Or.inl rfl⟩

theorem driverFold_methods_success (runMethod : String → Option OptimizeResult)
    (r : OptimizeResult)
    (h : (driverFold (methods.map runMethod)).1 = some r) :
    r.success = true ∧
      (runMethod "SLSQP" = some r ∨ runMethod "trust-constr" = some r) := by
  have hm : methods.map runMethod = [runMethod "SLSQP", runMethod "trust-constr"] := rfl
  rw [hm, driverFold_pair] at h
  exact claimedSelection_success _ _ _ h

/-! ## Helper lemmas: Python dict semantics -/

theorem any_key_iff (d : List (String × ℚ)) (k : String) :
    d.any (fun p => p.1 == k) = true ↔ k ∈ d.map Prod.fst := by
  rw [List.any_eq_true]
  constructor
  · rintro ⟨p, hp, hkey⟩
    exact List.mem_map.2 ⟨p, hp, beq_iff_eq.1 hkey⟩
  · intro h
    rcases List.mem_map.1 h with ⟨p, hp, rfl⟩
    exact ⟨p, hp, beq_iff_eq.2 rfl⟩

theorem keys_dictInsert (d : List (String × ℚ)) (k : String) (v : ℚ) :
    (dictInsert d k v).map Prod.fst =
      if d.any (fun p => p.1 == k) then d.map Prod.fst
      else d.map Prod.fst ++ [k] := by
  by_cases h : d.any (fun p => p.1 == k) = true
  · rw [dictInsert, if_pos h, if_pos h, List.map_map]
    apply List.map_congr_left
    intro p _
    simp only [Function.comp]
    split <;> rfl
  · rw [dictInsert, if_neg h, if_neg h, List.map_append]
    rfl

theorem mem_dictInsert (d : List (String × ℚ)) (k : String) (v : ℚ)
    (kv : String × ℚ) (h : kv ∈ dictInsert d k v) : kv ∈ d ∨ kv = (k, v) := by
  rw [dictInsert] at h
  split at h
  · rcases List.mem_map.1 h with ⟨p, hp, heq⟩
    by_cases hpk : p.1 == k
    · right
      rw [if_pos hpk] at heq
      rw [← heq, show p.1 = k from beq_iff_eq.1 hpk]
    · left
      rw [if_neg hpk] at heq
      exact heq ▸ hp
  · rcases List.mem_append.1 h with h | h
    · exact Or.inl h
    · exact Or.inr (List.mem_singleton.1 h)

theorem mem_foldl_dictInsert (pairs : List (String × ℚ)) :
    ∀ (d : List (String × ℚ)) (kv : String × ℚ),
      kv ∈ pairs.foldl (fun d kv => dictInsert d kv.1 kv.2) d →
      kv ∈ d ∨ kv ∈ pairs := by
  induction pairs with
  | nil => intro d kv h; exact Or.inl h
  | cons p t ih =>
      intro d kv h
      rcases ih (dictInsert d p.1 p.2) kv h with h1 | h1
      · rcases mem_dictInsert _ _ _ _ h1 with h2 | h2
        · exact Or.inl h2
        · exact Or.inr (h2 ▸ List.mem_cons_self p t)
      · exact Or.inr (List.mem_cons_of_mem p h1)

theorem mem_dictOfPairs (pairs : List (String × ℚ)) (kv : String × ℚ)
    (h : kv ∈ dictOfPairs pairs) : kv ∈ pairs := by
  rcases mem_foldl_dictInsert pairs [] kv h with h1 | h1
  · exact absurd h1 (List.not_mem_nil kv)
  · exact h1

theorem mem_keys_foldl (pairs : List (String × ℚ)) :
    ∀ (d : List (String × ℚ)) (k' : String),
      (k' ∈ (pairs.foldl (fun d kv => dictInsert d kv.1 kv.2) d).map Prod.fst ↔
        k' ∈ d.map Prod.fst ∨ k' ∈ pairs.map Prod.fst) := by
  induction pairs with
  | nil => intro d k'; simp
  | cons p t ih =>
      intro d k'
      rw [List.foldl_cons, ih, List.map_cons, List.mem_cons]
      constructor
      · rintro (h | h)
        · rw [keys_dictInsert] at h
          split at h
          · exact Or.inl h
          · rcases List.mem_append.1 h with h | h
            · exact Or.inl h
            · exact Or.inr (Or.inl (List.mem_singleton.1 h))
        · exact Or.inr (Or.inr h)
      · rintro (h | h | h)
        · left
          rw [keys_dictInsert]
          split
          · exact h
          · exact List.mem_append.2 (Or.inl h)
        · left
          rw [keys_dictInsert]
          split
          · next hc => rw [h]; exact (any_key_iff d p.1).1 hc
          · exact List.mem_append.2 (Or.inr (by rw [h]; exact List.mem_singleton.2 rfl))
        · exact Or.inr h

theorem mem_keys_dictOfPairs (pairs : List (String × ℚ)) (k' : String) :
    k' ∈ (dictOfPairs pairs).map Prod.fst ↔ k' ∈ pairs.map Prod.fst := by
  rw [dictOfPairs, mem_keys_foldl]
  simp

theorem nodup_keys_foldl (pairs : List (String × ℚ)) :
    ∀ (d : List (String × ℚ)), (d.map Prod.fst).Nodup →
      ((pairs.foldl (fun d kv => dictInsert d kv.1 kv.2) d).map Prod.fst).Nodup := by
  induction pairs with
  | nil => intro d h; exact h
  | cons p t ih =>
      intro d h
      rw [List.foldl_cons]
      apply ih
      rw [keys_dictInsert]
      split
      · exact h
      · next hc =>
          rw [← List.concat_eq_append]
          exact List.Nodup.concat (fun hm => hc ((any_key_iff d p.1).2 hm)) h

theorem nodup_keys_dictOfPairs (pairs : List (String × ℚ)) :
    ((dictOfPairs pairs).map Prod.fst).Nodup :=
  nodup_keys_foldl pairs [] (by simp)

theorem length_dictOfPairs (pairs : List (String × ℚ)) :
    (dictOfPairs pairs).length = (pairs.map Prod.fst).dedup.length := by
  have h1 : (dictOfPairs pairs).length = ((dictOfPairs pairs).map Prod.fst).length :=
    (List.length_map _ _).symm
  have h2 : ((dictOfPairs pairs).map Prod.fst).toFinset =
      (pairs.map Prod.fst).toFinset := by
    ext k
    simp only [List.mem_toFinset]
    exact mem_keys_dictOfPairs pairs k
  rw [h1, ← List.toFinset_card_of_nodup (nodup_keys_dictOfPairs pairs), h2,
    List.card_toFinset]

theorem dedup_length_lt_of_not_nodup (l : List String) (h : ¬ l.Nodup) :
    l.dedup.length < l.length := by
  rcases lt_or_eq_of_le (List.Sublist.length_le (List.dedup_sublist l)) with hlt | heq
  · exact hlt
  · exact absurd (List.dedup_eq_self.1 (List.Sublist.eq_of_length (List.dedup_sublist l) heq)) h

theorem find?_map_overwrite (k : String) (v : ℚ) (d : List (String × ℚ))
    (h : d.any (fun p => p.1 == k) = true) :
    (d.map (fun p => if p.1 == k then (p.1, v) else p)).find?
      (fun p => p.1 == k) = some (k, v) := by
  induction d with
  | nil => simp at h
  | cons p t ih =>
      by_cases hpk : (p.1 == k) = true
      · rw [List.map_cons, if_pos hpk]
        simp only [List.find?_cons, hpk]
        rw [show p.1 = k from beq_iff_eq.1 hpk]
      · have hpk' : (p.1 == k) = false := by simpa using hpk
        rw [List.map_cons, if_neg hpk]
        simp only [List.find?_cons, hpk']
        apply ih
        rcases List.any_eq_true.1 h with ⟨q, hq, hqk⟩
        rcases List.mem_cons.1 hq with rfl | hq
        · exact absurd hqk hpk
        · exact List.any_eq_true.2 ⟨q, hq, hqk⟩

theorem find?_map_other (k k' : String) (v : ℚ) (hkk : k' ≠ k)
    (d : List (String × ℚ)) :
    (d.map (fun p => if p.1 == k then (p.1, v) else p)).find?
      (fun p => p.1 == k') = d.find? (fun p => p.1 == k') := by
  induction d with
  | nil => rfl
  | cons p t ih =>
      rw [List.map_cons]
      by_cases hpk : (p.1 == k) = true
      · have hp1 : p.1 = k := beq_iff_eq.1 hpk
        have hne : (p.1 == k') = false := by
          simp only [beq_eq_false_iff_ne, ne_eq, hp1]
          exact fun hc => hkk hc.symm
        rw [if_pos hpk]
        simp only [List.find?_cons, hne, ih]
      · rw [if_neg hpk]
        cases hpk' : (p.1 == k') with
        | true => simp only [List.find?_cons, hpk']
        | false => simp only [List.find?_cons, hpk', ih]

theorem dictFind_dictInsert (d : List (String × ℚ)) (k k' : String) (v : ℚ) :
    dictFind (dictInsert d k v) k' = if k' = k then some v else dictFind d k' := by
  rw [dictInsert]
  by_cases hc : d.any (fun p => p.1 == k) = true
  · rw [if_pos hc]
    by_cases hk : k' = k
    · subst hk
      rw [if_pos rfl, dictFind, find?_map_overwrite k' v d hc]
      rfl
    · rw [if_neg hk, dictFind, dictFind, find?_map_other k k' v hk d]
  · rw [if_neg hc]
    by_cases hk : k' = k
    · subst hk
      rw [if_pos rfl, dictFind, List.find?_append]
      have h1 : d.find? (fun p => p.1 == k') = none := by
        rw [List.find?_eq_none]
        intro x hx hpx
        exact hc (List.any_eq_true.2 ⟨x, hx, hpx⟩)
      rw [h1]
      simp
    · rw [if_neg hk, dictFind, dictFind, List.find?_append]
      have h2 : List.find? (fun p => p.1 == k') [(k, v)] = none := by
        have hne : (k == k') = false := by
          simp only [beq_eq_false_iff_ne, ne_eq]
          exact fun hc2 => hk hc2.symm
        simp only [List.find?_cons, List.find?_nil, hne]
      rw [h2]
      simp

theorem dictOfPairs_concat (ps : List (String × ℚ)) (kv : String × ℚ) :
    dictOfPairs (ps ++ [kv]) = dictInsert (dictOfPairs ps) kv.1 kv.2 := by
  rw [dictOfPairs, dictOfPairs, List.foldl_append]
  rfl

theorem dictFind_dictOfPairs (pairs : List (String × ℚ)) (k : String) :
    dictFind (dictOfPairs pairs) k =
      ((pairs.reverse).find? (fun p => p.1 == k)).map Prod.snd := by
  induction pairs using List.reverseRecOn with
  | nil => rfl
  | append_singleton ps kv ih =>
      rw [dictOfPairs_concat, dictFind_dictInsert, List.reverse_append]
      simp only [List.reverse_singleton, List.singleton_append]
      by_cases hk : k = kv.1
      · have hpos : (kv.1 == k) = true := beq_iff_eq.2 hk.symm
        rw [if_pos hk]
        simp only [List.find?_cons, hpos]
        rfl
      · have hne : (kv.1 == k) = false := by
          simp only [beq_eq_false_iff_ne, ne_eq]
          exact fun hc => hk hc.symm
        rw [if_neg hk]
        simp only [List.find?_cons, hne, ih]

/-! ## Branch lemmas for `find_optimized_weights` -/

theorem length_beq_zero_eq_false (names : List String) (h : names ≠ []) :
    (names.length == 0) = false :=
  beq_eq_false_iff_ne.2 (fun hh => h (List.length_eq_zero.mp hh))

theorem find_error_branch (runMethod : String → Option OptimizeResult)
    (optimization_name : String) (players : List Player)
    (position_short_label : String) (varying_stats_names : List String)
    (target_stat_name : String)
    (h : (playersForPosition players position_short_label).isEmpty = true ∨
      varying_stats_names = []) :
    find_optimized_weights runMethod optimization_name players
      position_short_label varying_stats_names target_stat_name =
      .error (.valueError "Not players for position or features to analyze.") := by
  rcases h with h | h
  · simp [find_optimized_weights, h]
  · simp [find_optimized_weights, h]

theorem find_degenerate_branch (runMethod : String → Option OptimizeResult)
    (optimization_name : String) (players : List Player)
    (position_short_label : String) (varying_stats_names : List String)
    (target_stat_name : String)
    (h1 : (playersForPosition players position_short_label).isEmpty = false)
    (h2 : varying_stats_names ≠ [])
    (h3 : (validRows
        (featureMatrix varying_stats_names
          (playersForPosition players position_short_label))
        (targetVector target_stat_name
          (playersForPosition players position_short_label))).isEmpty = true) :
    find_optimized_weights runMethod optimization_name players
      position_short_label varying_stats_names target_stat_name =
      .ok { name := optimization_name
            position_short_label := position_short_label
            varying_stats_names := varying_stats_names
            target_stat_name := target_stat_name
            optimized_weights :=
              dictOfPairs (varying_stats_names.map
                (fun nm => (nm, uniformWeight varying_stats_names.length)))
            mean_error := 0 } := by
  simp [find_optimized_weights, h1, length_beq_zero_eq_false _ h2, h3]

theorem find_fallback_branch (runMethod : String → Option OptimizeResult)
    (optimization_name : String) (players : List Player)
    (position_short_label : String) (varying_stats_names : List String)
    (target_stat_name : String)
    (h1 : (playersForPosition players position_short_label).isEmpty = false)
    (h2 : varying_stats_names ≠ [])
    (h3 : (validRows
        (featureMatrix varying_stats_names
          (playersForPosition players position_short_label))
        (targetVector target_stat_name
          (playersForPosition players position_short_label))).isEmpty = false)
    (hbest : (driverFold (methods.map runMethod)).1 = none) :
    find_optimized_weights runMethod optimization_name players
      position_short_label varying_stats_names target_stat_name =
      .ok { name := optimization_name
            position_short_label := position_short_label
            varying_stats_names := varying_stats_names
            target_stat_name := target_stat_name
            optimized_weights :=
              dictOfPairs (varying_stats_names.zip
                (List.replicate varying_stats_names.length
                  (uniformWeight varying_stats_names.length)))
            mean_error :=
              objective
                (validRows
                  (featureMatrix varying_stats_names
                    (playersForPosition players position_short_label))
                  (targetVector target_stat_name
                    (playersForPosition players position_short_label)))
                (List.replicate varying_stats_names.length
                  (uniformWeight varying_stats_names.length)) } := by
  simp [find_optimized_weights, h1, length_beq_zero_eq_false _ h2, h3, hbest]

theorem find_converged_branch (runMethod : String → Option OptimizeResult)
    (optimization_name : String) (players : List Player)
    (position_short_label : String) (varying_stats_names : List String)
    (target_stat_name : String) (r : OptimizeResult)
    (h1 : (playersForPosition players position_short_label).isEmpty = false)
    (h2 : varying_stats_names ≠ [])
    (h3 : (validRows
        (featureMatrix varying_stats_names
          (playersForPosition players position_short_label))
        (targetVector target_stat_name
          (playersForPosition players position_short_label))).isEmpty = false)
    (hbest : (driverFold (methods.map runMethod)).1 = some r) :
    find_optimized_weights runMethod optimization_name players
      position_short_label varying_stats_names target_stat_name =
      .ok { name := optimization_name
            position_short_label := position_short_label
            varying_stats_names := varying_stats_names
            target_stat_name := target_stat_name
            optimized_weights :=
              dictOfPairs (varying_stats_names.zip (normalizeWeights r.x))
            mean_error := r.fval } := by
  simp [find_optimized_weights, h1, length_beq_zero_eq_false _ h2, h3, hbest]

/-! ## Helper lemmas: the cohort and the degeneracy filter -/

theorem validRows_eq_filter_map (varying_stats_names : List String)
    (target_stat_name : String) (ps : List Player) :
    validRows (featureMatrix varying_stats_names ps)
      (targetVector target_stat_name ps) =
      (ps.map (fun p =>
        (getFeatureRow varying_stats_names p,
          getTargetValue target_stat_name p))).filter
        (fun r => decide (r.2 ≠ 0)) := by
  rw [validRows, featureMatrix, targetVector, List.zip_map']

theorem validRows_isEmpty_of_all_zero (varying_stats_names : List String)
    (target_stat_name : String) (ps : List Player)
    (h : ∀ p ∈ ps, getTargetValue target_stat_name p = 0) :
    (validRows (featureMatrix varying_stats_names ps)
      (targetVector target_stat_name ps)).isEmpty = true := by
  rw [validRows_eq_filter_map, List.isEmpty_iff]
  apply List.filter_eq_nil_iff.2
  intro r hr
  rcases List.mem_map.1 hr with ⟨p, hp, rfl⟩
  simp [h p hp]

theorem validRows_isEmpty_false_of_nonzero (varying_stats_names : List String)
    (target_stat_name : String) (ps : List Player) (p : Player)
    (hp : p ∈ ps) (hnz : getTargetValue target_stat_name p ≠ 0) :
    (validRows (featureMatrix varying_stats_names ps)
      (targetVector target_stat_name ps)).isEmpty = false := by
  rw [validRows_eq_filter_map]
  apply List.isEmpty_eq_false.mpr
  apply List.ne_nil_of_mem
  · exact List.mem_filter.2 ⟨List.mem_map.2 ⟨p, hp, rfl⟩, by simpa using hnz⟩

theorem isEmpty_false_of_mem (l : List Player) (p : Player) (h : p ∈ l) :
    l.isEmpty = false :=
  List.isEmpty_eq_false.mpr (List.ne_nil_of_mem h)

/-! ## Concrete sample data (used by witnesses and counterexamples) -/

/-- A position record for the striker position. -/
def demoPosition : PlayerPosition :=
  { id := "1", shortLabel := "ST", label := "Striker" }

/-- A striker whose every statistic has value 2 and whose overall rating is 4. -/
def demoPlayer : Player :=
  { overallRating := 4, stats := fun _ => { value := 2, diff := 0 },
    position := demoPosition }

/-- A striker with overall rating 0 (a degenerate target). -/
def demoZeroPlayer : Player :=
  { overallRating := 0, stats := fun _ => { value := 2, diff := 0 },
    position := demoPosition }

/-- A striker whose statistics are all 0 but whose rating is 5: on this
player the objective is constant in the weights. -/
def demoConstPlayer : Player :=
  { overallRating := 5, stats := fun _ => { value := 0, diff := 0 },
    position := demoPosition }

/-- A solver behaviour whose every method succeeds with vector `[2]` and
objective value 1. -/
def demoConstRun : String → Option OptimizeResult :=
  fun _ => some { success := true, x := [2], fval := 1 }

/-- A solver behaviour whose every method succeeds with vector `[1/4, 1/4]`
(raw sum `1/2`) and objective value 0. -/
def demoDupRun : String → Option OptimizeResult :=
  fun _ => some { success := true, x := [1/4, 1/4], fval := 0 }

/-! ## The claims -/

/-- C5. The solver driver admits a method's outcome as a candidate only if
that method reports success, and among the successful candidates selects the
one with the strictly lowest objective value, exact ties won by the method
tried first (`"SLSQP"` is tried before `"trust-constr"`): the source's fold
over the two method outcomes equals the spec's selection policy
`claimedSelection`; every selected result reported success; and on an exact
tie between two successful methods the first one wins. -/
theorem C5_driver_selection_policy (runMethod : String → Option OptimizeResult) :
    (driverFold (methods.map runMethod)).1 =
      claimedSelection (runMethod "SLSQP") (runMethod "trust-constr") ∧
    (∀ r, (driverFold (methods.map runMethod)).1 = some r → r.success = true) ∧
    (∀ r1 r2, runMethod "SLSQP" = some r1 → runMethod "trust-constr" = some r2 →
      r1.success = true → r2.success = true → r1.fval = r2.fval →
      (driverFold (methods.map runMethod)).1 = some r1) := by
  have hm : methods.map runMethod =
      [runMethod "SLSQP", runMethod "trust-constr"] := rfl
  refine ⟨by rw [hm, driverFold_pair], ?_, ?_⟩
  · intro r h
    rw [hm, driverFold_pair] at h
    exact (claimedSelection_success _ _ _ h).1
  · intro r1 r2 h1 h2 hs1 hs2 htie
    rw [hm, driverFold_pair, h1, h2]
    simp [claimedSelection, hs1, hs2, htie]

/-- C6. For every weight vector (feasible or not), the source's objective —
the mean over the retained (nonzero-target) rows of `abs((X·w - y)/y)`,
dividing by the signed target — equals the spec's formula
`mean(|X·w - y| / |y|)`, which divides by the absolute target. -/
theorem C6_objective_matches_spec (X : List (List ℚ)) (y_actual : List ℚ)
    (weights : List ℚ) :
    objective (validRows X y_actual) weights =
      objectiveSpec (validRows X y_actual) weights := by
  simp only [objective, objectiveSpec, abs_div]

/-- C9. Evaluating the objective never divides by a zero target: the
degeneracy filter `validRows` retains exactly the (row, target) pairs whose
target is nonzero, so every target denominator `r.2` appearing in
`objective` over the retained rows is nonzero. -/
theorem C9_no_zero_denominators (X : List (List ℚ)) (y_actual : List ℚ) :
    (∀ r ∈ validRows X y_actual, r.2 ≠ 0) ∧
    (∀ r ∈ X.zip y_actual, (r.2 ≠ 0 ↔ r ∈ validRows X y_actual)) := by
  constructor
  · intro r hr
    have h := List.mem_filter.1 hr
    simpa using h.2
  · intro r hr
    constructor
    · intro hnz
      exact List.mem_filter.2 ⟨hr, by simpa using hnz⟩
    · intro hm
      simpa using (List.mem_filter.1 hm).2

/-- C7. `fit_weights` is deterministic: it is a pure function of its explicit
arguments (with the deterministic scipy back-ends represented by the same
`runMethod` on both runs); two calls on componentwise-identical inputs return
identical results — no hidden state, no randomness, no cross-call mutation. -/
theorem C7_deterministic (runMethod : String → Option OptimizeResult)
    (nm1 nm2 : String) (players1 players2 : List Player) (pos1 pos2 : String)
    (names1 names2 : List String) (target1 target2 : String)
    (h : nm1 = nm2 ∧ players1 = players2 ∧ pos1 = pos2 ∧ names1 = names2 ∧
      target1 = target2) :
    find_optimized_weights runMethod nm1 players1 pos1 names1 target1 =
      find_optimized_weights runMethod nm2 players2 pos2 names2 target2 := by
  obtain ⟨rfl, rfl, rfl, rfl, rfl⟩ := h
  rfl

/-- Witness for C7 at a concrete input. -/
theorem C7_witness :
    find_optimized_weights (fun _ => none) "opt" [demoPlayer] "ST" ["pac"]
        "overallRating" =
      find_optimized_weights (fun _ => none) "opt" [demoPlayer] "ST" ["pac"]
        "overallRating" :=
  C7_deterministic (fun _ => none) "opt" "opt" [demoPlayer] [demoPlayer]
    "ST" "ST" ["pac"] ["pac"] "overallRating" "overallRating"
    ⟨rfl, rfl, rfl, rfl, rfl⟩

/-- C3 counterexample. The code has no distinct `EmptyCohortError` and
`NoFeaturesError`: on an empty cohort (no players at all) and on an empty
feature list it raises the very same single
`ValueError("Not players for position or features to analyze.")` value, so
the two failure cases are indistinguishable by error type, contrary to the
claim's two distinct errors. -/
theorem C3_counterexample :
    find_optimized_weights (fun _ => none) "opt" [] "ST" ["pac"]
        "overallRating" =
      .error (.valueError "Not players for position or features to analyze.") ∧
    find_optimized_weights (fun _ => none) "opt" [demoPlayer] "ST" []
        "overallRating" =
      .error (.valueError "Not players for position or features to analyze.") :=
  ⟨find_error_branch _ _ _ _ _ _ (Or.inl rfl),
    find_error_branch _ _ _ _ _ _ (Or.inr rfl)⟩

/-- C3 (amended). When no records match the requested position, or the
feature-name list is empty, `fit_weights` fails before solving with the one
structural error the code has — `ValueError("Not players for position or
features to analyze.")` — and never returns a result. (The code raises the
same `ValueError` in both cases; it does not distinguish an
`EmptyCohortError` from a `NoFeaturesError`.) -/
theorem C3_structural_failure (runMethod : String → Option OptimizeResult)
    (optimization_name : String) (players : List Player)
    (position_short_label : String) (varying_stats_names : List String)
    (target_stat_name : String)
    (h : (playersForPosition players position_short_label).isEmpty = true ∨
      varying_stats_names = []) :
    find_optimized_weights runMethod optimization_name players
      position_short_label varying_stats_names target_stat_name =
      .error (.valueError "Not players for position or features to analyze.") :=
  find_error_branch runMethod optimization_name players position_short_label
    varying_stats_names target_stat_name h

/-- Witness for C3 (amended) at a concrete input: an empty player list. -/
theorem C3_structural_failure_witness :
    find_optimized_weights (fun _ => none) "opt" [] "ST" ["pac"]
        "overallRating" =
      .error (.valueError "Not players for position or features to analyze.") :=
  C3_structural_failure (fun _ => none) "opt" [] "ST" ["pac"] "overallRating"
    (Or.inl rfl)

/-- C2. If every target value in the cohort is exactly zero, the degeneracy
filter removes all rows and `fit_weights` returns immediately with every
feature's weight equal to `1/feature_count` and mean error `0.0`. No solver
is invoked: the result does not depend on `runMethod` at all (it is
universally quantified and absent from the right-hand side, and any two
solver behaviours give the same result). -/
theorem C2_all_zero_targets_uniform (runMethod : String → Option OptimizeResult)
    (optimization_name : String) (players : List Player)
    (position_short_label : String) (varying_stats_names : List String)
    (target_stat_name : String)
    (h1 : (playersForPosition players position_short_label).isEmpty = false)
    (h2 : varying_stats_names ≠ [])
    (hz : ∀ p ∈ playersForPosition players position_short_label,
      getTargetValue target_stat_name p = 0) :
    find_optimized_weights runMethod optimization_name players
      position_short_label varying_stats_names target_stat_name =
      .ok { name := optimization_name
            position_short_label := position_short_label
            varying_stats_names := varying_stats_names
            target_stat_name := target_stat_name
            optimized_weights :=
              dictOfPairs (varying_stats_names.map
                (fun nm => (nm, uniformWeight varying_stats_names.length)))
            mean_error := 0 } ∧
    (∀ kv ∈ dictOfPairs (varying_stats_names.map
        (fun nm => (nm, uniformWeight varying_stats_names.length))),
      kv.2 = uniformWeight varying_stats_names.length) ∧
    (∀ runMethod2 : String → Option OptimizeResult,
      find_optimized_weights runMethod2 optimization_name players
        position_short_label varying_stats_names target_stat_name =
      find_optimized_weights runMethod optimization_name players
        position_short_label varying_stats_names target_stat_name) := by
  have h3 := validRows_isEmpty_of_all_zero varying_stats_names target_stat_name _ hz
  refine ⟨find_degenerate_branch _ _ _ _ _ _ h1 h2 h3, ?_, ?_⟩
  · intro kv hkv
    have hm := mem_dictOfPairs _ _ hkv
    rcases List.mem_map.1 hm with ⟨nm, _, rfl⟩
    rfl
  · intro runMethod2
    rw [find_degenerate_branch runMethod2 _ _ _ _ _ h1 h2 h3,
      find_degenerate_branch runMethod _ _ _ _ _ h1 h2 h3]

/-- Witness for C2 at a concrete input: one striker with overall rating 0
and two features. -/
theorem C2_witness :
    find_optimized_weights (fun _ => none) "opt" [demoZeroPlayer] "ST"
        ["pac", "sho"] "overallRating" =
      .ok { name := "opt"
            position_short_label := "ST"
            varying_stats_names := ["pac", "sho"]
            target_stat_name := "overallRating"
            optimized_weights :=
              dictOfPairs ((["pac", "sho"] : List String).map
                (fun nm => (nm, uniformWeight (["pac", "sho"] : List String).length)))
            mean_error := 0 } ∧
    (∀ kv ∈ dictOfPairs ((["pac", "sho"] : List String).map
        (fun nm => (nm, uniformWeight (["pac", "sho"] : List String).length))),
      kv.2 = uniformWeight (["pac", "sho"] : List String).length) ∧
    (∀ runMethod2 : String → Option OptimizeResult,
      find_optimized_weights runMethod2 "opt" [demoZeroPlayer] "ST"
        ["pac", "sho"] "overallRating" =
      find_optimized_weights (fun _ => none) "opt" [demoZeroPlayer] "ST"
        ["pac", "sho"] "overallRating") :=
  C2_all_zero_targets_uniform (fun _ => none) "opt" [demoZeroPlayer] "ST"
    ["pac", "sho"] "overallRating" rfl (by simp)
    (by
      intro p hp
      rcases List.mem_singleton.1 hp with rfl
      rfl)

/-- C4. With a non-empty cohort, at least one feature and at least one
nonzero target, `fit_weights` never fails because of solver behaviour: a
method that raises (outcome `none`) is skipped and the next method tried —
the fold over outcomes absorbs it — so a result is returned for every solver
behaviour whatsoever; and when no method reports success the function
returns the uniform weight vector with the objective evaluated at that
uniform vector as the mean error, rather than raising. -/
theorem C4_solver_failures_absorbed (runMethod : String → Option OptimizeResult)
    (optimization_name : String) (players : List Player)
    (position_short_label : String) (varying_stats_names : List String)
    (target_stat_name : String) (p : Player)
    (hp : p ∈ playersForPosition players position_short_label)
    (h2 : varying_stats_names ≠ [])
    (hnz : getTargetValue target_stat_name p ≠ 0) :
    (∃ res, find_optimized_weights runMethod optimization_name players
      position_short_label varying_stats_names target_stat_name = .ok res) ∧
    ((driverFold (methods.map runMethod)).1 = none →
      find_optimized_weights runMethod optimization_name players
        position_short_label varying_stats_names target_stat_name =
        .ok { name := optimization_name
              position_short_label := position_short_label
              varying_stats_names := varying_stats_names
              target_stat_name := target_stat_name
              optimized_weights :=
                dictOfPairs (varying_stats_names.zip
                  (List.replicate varying_stats_names.length
                    (uniformWeight varying_stats_names.length)))
              mean_error :=
                objective
                  (validRows
                    (featureMatrix varying_stats_names
                      (playersForPosition players position_short_label))
                    (targetVector target_stat_name
                      (playersForPosition players position_short_label)))
                  (List.replicate varying_stats_names.length
                    (uniformWeight varying_stats_names.length)) }) := by
  have h1 := isEmpty_false_of_mem _ _ hp
  have h3 := validRows_isEmpty_false_of_nonzero varying_stats_names
    target_stat_name _ p hp hnz
  constructor
  · rcases hbest : (driverFold (methods.map runMethod)).1 with _ | r
    · exact ⟨_, find_fallback_branch _ _ _ _ _ _ h1 h2 h3 hbest⟩
    · exact ⟨_, find_converged_branch _ _ _ _ _ _ r h1 h2 h3 hbest⟩
  · intro hbest
    exact find_fallback_branch _ _ _ _ _ _ h1 h2 h3 hbest

/-- Witness for C4 at a concrete input: a solver behaviour on which both
methods raise (`none`), absorbed into the uniform fallback. -/
theorem C4_witness :
    (∃ res, find_optimized_weights (fun _ => none) "opt" [demoPlayer] "ST"
      ["pac"] "overallRating" = .ok res) ∧
    ((driverFold (methods.map (fun _ => none))).1 = none →
      find_optimized_weights (fun _ => none) "opt" [demoPlayer] "ST"
        ["pac"] "overallRating" =
        .ok { name := "opt"
              position_short_label := "ST"
              varying_stats_names := ["pac"]
              target_stat_name := "overallRating"
              optimized_weights :=
                dictOfPairs ((["pac"] : List String).zip
                  (List.replicate (["pac"] : List String).length
                    (uniformWeight (["pac"] : List String).length)))
              mean_error :=
                objective
                  (validRows
                    (featureMatrix ["pac"]
                      (playersForPosition [demoPlayer] "ST"))
                    (targetVector "overallRating"
                      (playersForPosition [demoPlayer] "ST")))
                  (List.replicate (["pac"] : List String).length
                    (uniformWeight (["pac"] : List String).length)) }) :=
  C4_solver_failures_absorbed (fun _ => none) "opt" [demoPlayer] "ST" ["pac"]
    "overallRating" demoPlayer (List.mem_singleton.2 rfl) (by simp)
    (by decide)

/-- C1. For every valid input (non-empty cohort, at least one feature), and
under the scipy solver contract — a successful outcome's vector has one
entry per feature, respects the bounds `w_i ≥ 0` (the bounds are `(0, None)`)
and has positive sum (the equality constraint `sum(w) = 1` holds to solver
tolerance) — the weight vector underlying the returned result sums to
exactly 1 and every component is nonnegative; in particular the sum is
within 1e-9 of 1 and every component is ≥ -1e-12. In the converged branch
this vector is the winning solver vector divided by its own sum
(`normalizeWeights`); in the degenerate and no-success branches it is the
uniform vector. -/
theorem C1_simplex_normalization (runMethod : String → Option OptimizeResult)
    (optimization_name : String) (players : List Player)
    (position_short_label : String) (varying_stats_names : List String)
    (target_stat_name : String) (p : Player)
    (hp : p ∈ playersForPosition players position_short_label)
    (h2 : varying_stats_names ≠ [])
    (hsolver : ∀ m r, runMethod m = some r → r.success = true →
      r.x.length = varying_stats_names.length ∧ (∀ c ∈ r.x, 0 ≤ c) ∧
        0 < r.x.sum) :
    ∃ res w, find_optimized_weights runMethod optimization_name players
        position_short_label varying_stats_names target_stat_name = .ok res ∧
      res.optimized_weights = dictOfPairs (varying_stats_names.zip w) ∧
      w.length = varying_stats_names.length ∧
      w.sum = 1 ∧ (∀ c ∈ w, 0 ≤ c) := by
  have h1 := isEmpty_false_of_mem _ _ hp
  have hnlen : varying_stats_names.length ≠ 0 :=
    fun hh => h2 (List.length_eq_zero.mp hh)
  have huw : (0:ℚ) ≤ uniformWeight varying_stats_names.length := by
    rw [uniformWeight]
    positivity
  cases hrows : (validRows
      (featureMatrix varying_stats_names
        (playersForPosition players position_short_label))
      (targetVector target_stat_name
        (playersForPosition players position_short_label))).isEmpty with
  | true =>
      refine ⟨_, List.replicate varying_stats_names.length
          (uniformWeight varying_stats_names.length),
        find_degenerate_branch _ _ _ _ _ _ h1 h2 hrows, ?_, ?_, ?_, ?_⟩
      · rw [zip_replicate_eq_map]
      · exact List.length_replicate _ _
      · exact uniform_sum _ hnlen
      · intro c hc
        rw [List.eq_of_mem_replicate hc]
        exact huw
  | false =>
      rcases hbest : (driverFold (methods.map runMethod)).1 with _ | r
      · refine ⟨_, List.replicate varying_stats_names.length
            (uniformWeight varying_stats_names.length),
          find_fallback_branch _ _ _ _ _ _ h1 h2 hrows hbest, rfl, ?_, ?_, ?_⟩
        · exact List.length_replicate _ _
        · exact uniform_sum _ hnlen
        · intro c hc
          rw [List.eq_of_mem_replicate hc]
          exact huw
      · have hsucc := driverFold_methods_success runMethod r hbest
        have hcontract : r.x.length = varying_stats_names.length ∧
            (∀ c ∈ r.x, 0 ≤ c) ∧ 0 < r.x.sum := by
          rcases hsucc.2 with hm | hm
          · exact hsolver _ _ hm hsucc.1
          · exact hsolver _ _ hm hsucc.1
        obtain ⟨hlen, hc, hsum⟩ := hcontract
        refine ⟨_, normalizeWeights r.x,
          find_converged_branch _ _ _ _ _ _ r h1 h2 hrows hbest, rfl, ?_, ?_, ?_⟩
        · rw [normalizeWeights_length, hlen]
        · exact normalizeWeights_sum _ (ne_of_gt hsum)
        · exact normalizeWeights_nonneg _ hsum hc

/-- Witness for C1 at a concrete input (both methods raise, so the uniform
fallback is taken and the solver contract hypothesis is vacuous). -/
theorem C1_witness :
    ∃ res w, find_optimized_weights (fun _ => none) "opt" [demoPlayer] "ST"
        ["pac"] "overallRating" = .ok res ∧
      res.optimized_weights = dictOfPairs ((["pac"] : List String).zip w) ∧
      w.length = (["pac"] : List String).length ∧
      w.sum = 1 ∧ (∀ c ∈ w, 0 ≤ c) :=
  C1_simplex_normalization (fun _ => none) "opt" [demoPlayer] "ST" ["pac"]
    "overallRating" demoPlayer (List.mem_singleton.2 rfl) (by simp)
    (fun _ _ h _ => Option.noConfusion h)

/-- C8 (amended). When a solver method wins, the returned `mean_error` is the
winning method's reported objective value — the objective at the raw solver
vector `r.x`, computed before the normalization that divides the weights by
their sum; the objective is not re-evaluated at the normalized weights that
are actually returned. When the raw vector already sums to 1 the returned
`mean_error` consequently equals the objective at the returned weights; when
it does not, the two values can differ, though they may also coincide (e.g.
for a constant objective — see the counterexample, which is what refutes the
claim's "only when"). -/
theorem C8_mean_error_prenormalization (runMethod : String → Option OptimizeResult)
    (optimization_name : String) (players : List Player)
    (position_short_label : String) (varying_stats_names : List String)
    (target_stat_name : String) (p : Player) (r : OptimizeResult)
    (hp : p ∈ playersForPosition players position_short_label)
    (h2 : varying_stats_names ≠ [])
    (hnz : getTargetValue target_stat_name p ≠ 0)
    (hbest : (driverFold (methods.map runMethod)).1 = some r)
    (hfun : r.fval = objective
      (validRows
        (featureMatrix varying_stats_names
          (playersForPosition players position_short_label))
        (targetVector target_stat_name
          (playersForPosition players position_short_label))) r.x) :
    ∃ res, find_optimized_weights runMethod optimization_name players
        position_short_label varying_stats_names target_stat_name = .ok res ∧
      res.mean_error = objective
        (validRows
          (featureMatrix varying_stats_names
            (playersForPosition players position_short_label))
          (targetVector target_stat_name
            (playersForPosition players position_short_label))) r.x ∧
      res.optimized_weights =
        dictOfPairs (varying_stats_names.zip (normalizeWeights r.x)) ∧
      (r.x.sum = 1 → res.mean_error = objective
        (validRows
          (featureMatrix varying_stats_names
            (playersForPosition players position_short_label))
          (targetVector target_stat_name
            (playersForPosition players position_short_label)))
        (normalizeWeights r.x)) := by
  have h1 := isEmpty_false_of_mem _ _ hp
  have h3 := validRows_isEmpty_false_of_nonzero varying_stats_names
    target_stat_name _ p hp hnz
  refine ⟨_, find_converged_branch _ _ _ _ _ _ r h1 h2 h3 hbest, hfun, rfl, ?_⟩
  intro hsum
  rw [normalizeWeights_sum_one _ hsum]
  exact hfun

/-- The retained rows of the constant-objective sample: one row with feature
value 0 and target 5. -/
theorem demoConst_validRows :
    validRows
      (featureMatrix ["pac"] (playersForPosition [demoConstPlayer] "ST"))
      (targetVector "overallRating" (playersForPosition [demoConstPlayer] "ST")) =
    [([0], 5)] := by
  norm_num [validRows, featureMatrix, targetVector, playersForPosition,
    getFeatureRow, getTargetValue, demoConstPlayer, demoPosition]

/-- Witness for C8 (amended) at a concrete input: the winning vector is
`[2]` with reported objective value 1. -/
theorem C8_witness :
    ∃ res, find_optimized_weights demoConstRun "opt" [demoConstPlayer] "ST"
        ["pac"] "overallRating" = .ok res ∧
      res.mean_error = objective
        (validRows
          (featureMatrix ["pac"] (playersForPosition [demoConstPlayer] "ST"))
          (targetVector "overallRating"
            (playersForPosition [demoConstPlayer] "ST")))
        (OptimizeResult.mk true [2] 1).x ∧
      res.optimized_weights =
        dictOfPairs ((["pac"] : List String).zip
          (normalizeWeights (OptimizeResult.mk true [2] 1).x)) ∧
      ((OptimizeResult.mk true [2] 1).x.sum = 1 →
        res.mean_error = objective
          (validRows
            (featureMatrix ["pac"] (playersForPosition [demoConstPlayer] "ST"))
            (targetVector "overallRating"
              (playersForPosition [demoConstPlayer] "ST")))
          (normalizeWeights (OptimizeResult.mk true [2] 1).x)) :=
  C8_mean_error_prenormalization demoConstRun "opt" [demoConstPlayer] "ST"
    ["pac"] "overallRating" demoConstPlayer (OptimizeResult.mk true [2] 1)
    (List.mem_singleton.2 rfl) (by simp) (by decide) rfl
    (by rw [demoConst_validRows]; norm_num [objective, dotProduct])

/-- C8 counterexample. On the concrete input whose single retained row has
feature value 0 and target 5 the objective is constantly 1 in the weights:
the winning raw vector `[2]` has sum 2 ≠ 1, yet the returned `mean_error`
(1) still equals the objective at the returned normalized weights — so the
returned `mean_error` can equal the objective at the returned weights even
when the raw weights do not sum to 1, refuting the claim's "only when the
raw weights already sum to 1". -/
theorem C8_counterexample :
    (([2] : List ℚ).sum ≠ 1) ∧
    find_optimized_weights demoConstRun "opt" [demoConstPlayer] "ST" ["pac"]
        "overallRating" =
      .ok { name := "opt"
            position_short_label := "ST"
            varying_stats_names := ["pac"]
            target_stat_name := "overallRating"
            optimized_weights :=
              dictOfPairs ((["pac"] : List String).zip (normalizeWeights [2]))
            mean_error := 1 } ∧
    objective
      (validRows
        (featureMatrix ["pac"] (playersForPosition [demoConstPlayer] "ST"))
        (targetVector "overallRating" (playersForPosition [demoConstPlayer] "ST")))
      (normalizeWeights [2]) = 1 := by
  refine ⟨by norm_num, ?_,
    by rw [demoConst_validRows]; norm_num [objective, dotProduct, normalizeWeights]⟩
  exact find_converged_branch demoConstRun "opt" [demoConstPlayer] "ST"
    ["pac"] "overallRating" (OptimizeResult.mk true [2] 1) rfl (by simp) rfl rfl

/-- C10. If the feature-name list contains a duplicate name, the
`optimized_weights` mapping in the returned result has one entry per
distinct name: its keys are distinct and are exactly the feature names; the
value bound to each name is the one of the last zip pair carrying that name
(the weight at the last position of the name, later bindings overwriting
earlier ones); the mapping has strictly fewer entries than there are
features; and the values stored in it need not sum to 1 even though the
underlying normalized weight vector does — shown by the concrete
duplicate-name run in the final conjunct, whose vector sums to 1 while the
mapping's values sum to 1/2. -/
theorem C10_duplicate_name_collapse (runMethod : String → Option OptimizeResult)
    (optimization_name : String) (players : List Player)
    (position_short_label : String) (varying_stats_names : List String)
    (target_stat_name : String) (p : Player) (r : OptimizeResult)
    (hp : p ∈ playersForPosition players position_short_label)
    (hnz : getTargetValue target_stat_name p ≠ 0)
    (hdup : ¬ varying_stats_names.Nodup)
    (hbest : (driverFold (methods.map runMethod)).1 = some r)
    (hlen : r.x.length = varying_stats_names.length) :
    ∃ res, find_optimized_weights runMethod optimization_name players
        position_short_label varying_stats_names target_stat_name = .ok res ∧
      res.optimized_weights =
        dictOfPairs (varying_stats_names.zip (normalizeWeights r.x)) ∧
      (res.optimized_weights.map Prod.fst).Nodup ∧
      (∀ k, k ∈ res.optimized_weights.map Prod.fst ↔
        k ∈ varying_stats_names) ∧
      res.optimized_weights.length < varying_stats_names.length ∧
      (∀ k, dictFind res.optimized_weights k =
        (((varying_stats_names.zip (normalizeWeights r.x)).reverse).find?
          (fun q => q.1 == k)).map Prod.snd) ∧
      (∃ res2, find_optimized_weights demoDupRun "opt" [demoPlayer] "ST"
          ["pac", "pac"] "overallRating" = .ok res2 ∧
        res2.optimized_weights =
          dictOfPairs ((["pac", "pac"] : List String).zip
            (normalizeWeights [1/4, 1/4])) ∧
        (normalizeWeights [1/4, 1/4]).sum = 1 ∧
        (res2.optimized_weights.map Prod.snd).sum ≠ 1) := by
  have h2 : varying_stats_names ≠ [] :=
    fun hnil => hdup (hnil ▸ List.nodup_nil)
  have h1 := isEmpty_false_of_mem _ _ hp
  have h3 := validRows_isEmpty_false_of_nonzero varying_stats_names
    target_stat_name _ p hp hnz
  have hkeys : (varying_stats_names.zip (normalizeWeights r.x)).map Prod.fst =
      varying_stats_names :=
    List.map_fst_zip _ _ (by rw [normalizeWeights_length, hlen])
  refine ⟨_, find_converged_branch _ _ _ _ _ _ r h1 h2 h3 hbest, rfl,
    nodup_keys_dictOfPairs _, ?_, ?_, ?_, ?_⟩
  · intro k
    rw [mem_keys_dictOfPairs, hkeys]
  · rw [length_dictOfPairs, hkeys]
    exact dedup_length_lt_of_not_nodup _ hdup
  · intro k
    exact dictFind_dictOfPairs _ k
  · refine ⟨_, find_converged_branch demoDupRun "opt" [demoPlayer] "ST"
      ["pac", "pac"] "overallRating" (OptimizeResult.mk true [1/4, 1/4] 0)
      rfl (by simp) rfl rfl, rfl, ?_, ?_⟩
    · norm_num [normalizeWeights]
    · norm_num [normalizeWeights, dictOfPairs, dictInsert]

/-- Witness for C10 at a concrete input: the duplicated feature list
`["pac", "pac"]` with a successful solver vector `[1/4, 1/4]`. -/
theorem C10_witness :
    ∃ res, find_optimized_weights demoDupRun "opt" [demoPlayer] "ST"
        ["pac", "pac"] "overallRating" = .ok res ∧
      res.optimized_weights =
        dictOfPairs ((["pac", "pac"] : List String).zip
          (normalizeWeights (OptimizeResult.mk true [1/4, 1/4] 0).x)) ∧
      (res.optimized_weights.map Prod.fst).Nodup ∧
      (∀ k, k ∈ res.optimized_weights.map Prod.fst ↔
        k ∈ (["pac", "pac"] : List String)) ∧
      res.optimized_weights.length < (["pac", "pac"] : List String).length ∧
      (∀ k, dictFind res.optimized_weights k =
        ((((["pac", "pac"] : List String).zip
            (normalizeWeights (OptimizeResult.mk true [1/4, 1/4] 0).x)).reverse).find?
          (fun q => q.1 == k)).map Prod.snd) ∧
      (∃ res2, find_optimized_weights demoDupRun "opt" [demoPlayer] "ST"
          ["pac", "pac"] "overallRating" = .ok res2 ∧
        res2.optimized_weights =
          dictOfPairs ((["pac", "pac"] : List String).zip
            (normalizeWeights [1/4, 1/4])) ∧
        (normalizeWeights [1/4, 1/4]).sum = 1 ∧
        (res2.optimized_weights.map Prod.snd).sum ≠ 1) :=
  C10_duplicate_name_collapse demoDupRun "opt" [demoPlayer] "ST"
    ["pac", "pac"] "overallRating" demoPlayer
    (OptimizeResult.mk true [1/4, 1/4] 0) (List.mem_singleton.2 rfl)
    (by decide) (by decide) rfl rfl
